import Mathlib

/-!
Verification development for the Namada block-proposal construction core:
a shallow embedding of `crates/apps/src/lib/node/ledger/shell/prepare_proposal.rs`
and `crates/controller/src/lib.rs`, together with models of the external
collaborators those files call into (block allocator bins, temporary
write-log overlay, replay-protection checks, fee transfer), which are
modelled from the specification where their sources are not available.

Addresses, hashes and token amounts are represented by natural numbers;
amount overflow checks are made explicit against the 256-bit bound.
-/

/-- Typed allocation failure of the block allocator, from the spec:
`Rejected` means the bin cannot take the item in its remaining space
(bin full, the intake scan for this resource should stop), while
`OverflowsBin` means the single item exceeds the total bin capacity. -/
inductive AllocFailure where
  | Rejected (binResourceLeft : Nat)
  | OverflowsBin (binResource : Nat)
deriving DecidableEq

/-- Modelled from the spec: a resource bin of the block allocator
(`block_alloc` is not among the provided sources). It tracks a consumed
quantity against a fixed capacity. -/
structure TxBin where
  allotted : Nat
  occupied : Nat
deriving DecidableEq

/-- Modelled from the spec: speculative consumption against a bin.
On success the consumed amount grows; on failure the bin is unchanged and
the failure kind distinguishes a full bin from an oversized single item. -/
def TxBin.tryDump (b : TxBin) (size : Nat) : Except AllocFailure TxBin :=
  if b.occupied + size ≤ b.allotted then
    Except.ok { b with occupied := b.occupied + size }
  else if b.allotted < size then
    Except.error (AllocFailure.OverflowsBin b.allotted)
  else
    Except.error (AllocFailure.Rejected (b.allotted - b.occupied))

/-- Modelled from the spec: the `BuildingNormalTxBatch` allocator state,
which gates on two resources simultaneously, tx bytes and gas. -/
structure NormalAlloc where
  txBin : TxBin
  gasBin : TxBin
deriving DecidableEq

/-- Modelled from the spec: atomic two-resource allocation. The byte
allocation is rolled back when the gas allocation fails, so a failed
item leaves both bins unchanged. -/
def NormalAlloc.tryAlloc (a : NormalAlloc) (bytes gas : Nat) :
    Except AllocFailure NormalAlloc :=
  match a.txBin.tryDump bytes with
  | Except.error e => Except.error e
  | Except.ok tb =>
    match a.gasBin.tryDump gas with
    | Except.error e => Except.error e
    | Except.ok gb => Except.ok ⟨tb, gb⟩

/-- Modelled from the spec: the `BuildingProtocolTxBatch` allocator state,
gating on a single byte-space bin. -/
structure ProtAlloc where
  bin : TxBin
deriving DecidableEq

/-- Modelled from the spec: single-resource allocation for protocol txs. -/
def ProtAlloc.tryAlloc (a : ProtAlloc) (bytes : Nat) :
    Except AllocFailure ProtAlloc :=
  match a.bin.tryDump bytes with
  | Except.error e => Except.error e
  | Except.ok b => Except.ok ⟨b⟩

/-- Wrapper transaction data, from `namada::tx::data::WrapperTx` as used by
`prepare_proposal.rs`: fee (amount per gas unit and token), gas limit and
the fee payer address. -/
structure WrapperTx where
  feeAmountPerGasUnit : Nat
  feeToken : Nat
  gasLimit : Nat
  payer : Nat
deriving DecidableEq

/-- Transaction type tag, from `namada::tx::data::TxType`. -/
inductive TxType where
  | Raw
  | Wrapper (w : WrapperTx)
  | Protocol
deriving DecidableEq

/-- Decoded view of a mempool candidate, per the data model of the spec.
The opaque externals (codec, signature validation, hashing, vote-extension
deserialization) are represented by their outcomes on this candidate. -/
structure Tx where
  decodeOk : Bool
  validateOk : Bool
  expiration : Option Nat
  txType : TxType
  headerHash : Nat
  rawHeaderHash : Nat
  byteSize : Nat
  isVoteExt : Bool
deriving DecidableEq

/-- Modelled from the spec: the temporary write-log overlay (`TempWlState`
is not among the provided sources). Replay-protection hashes and balance
writes each have a durable base layer, a layer of writes committed by
earlier candidates of the same proposal, and a pending layer for the
candidate currently being processed. Balance writes are keyed by
`(token, owner)` with the most recent write first. The per-token minimum
gas price parameter table is part of committed storage. -/
structure TempWlState where
  replayBase : List Nat
  replayCommitted : List Nat
  replayPending : List Nat
  balBase : List (Nat × Nat × Nat)
  balCommitted : List (Nat × Nat × Nat)
  balPending : List (Nat × Nat × Nat)
  gasCost : List (Nat × Nat)
deriving DecidableEq

/-- First balance write for a `(token, owner)` key in a write list. -/
def lookupBalWrite (l : List (Nat × Nat × Nat)) (token owner : Nat) :
    Option Nat :=
  match l with
  | [] => none
  | (tk, ow, amt) :: rest =>
    if tk = token ∧ ow = owner then some amt
    else lookupBalWrite rest token owner

/-- Balance visible through the overlay: pending writes shadow committed
writes, which shadow the durable base (absent keys read as zero). -/
def TempWlState.balance (st : TempWlState) (token owner : Nat) : Nat :=
  match lookupBalWrite st.balPending token owner with
  | some a => a
  | none =>
    match lookupBalWrite st.balCommitted token owner with
    | some a => a
    | none => (lookupBalWrite st.balBase token owner).getD 0

/-- Modelled from the spec: `commit_tx` folds the pending writes of the
current candidate into the layer visible to subsequent candidates. -/
def TempWlState.commitTx (st : TempWlState) : TempWlState :=
  { st with
    replayCommitted := st.replayPending ++ st.replayCommitted
    replayPending := []
    balCommitted := st.balPending ++ st.balCommitted
    balPending := [] }

/-- Modelled from the spec: `drop_tx` discards the pending writes of the
current candidate. -/
def TempWlState.dropTx (st : TempWlState) : TempWlState :=
  { st with replayPending := [], balPending := [] }

/-- Modelled from the spec: `with_temp_write_log` opens a fresh overlay
over the committed state. -/
def TempWlState.withTempWriteLog (st : TempWlState) : TempWlState :=
  { st with
    replayCommitted := []
    replayPending := []
    balCommitted := []
    balPending := [] }

/-- Context threaded through normal-tx admission: the block time of the
request, the resolved block proposer and the validator-local fee
configuration (`accepted_gas_tokens` as a token to minimum-rate table). -/
structure ProposalCtx where
  blockTime : Option Nat
  blockProposer : Nat
  localConfig : Option (List (Nat × Nat))
deriving DecidableEq

/-- First entry for a token key in a token-to-rate table. -/
def lookupRate (l : List (Nat × Nat)) (token : Nat) : Option Nat :=
  match l with
  | [] => none
  | (tk, r) :: rest => if tk = token then some r else lookupRate rest token

/-- The expiration test of `validate_wrapper_bytes`: a transaction is
rejected as expired exactly when both a block time and an expiration are
present and the block time is strictly later. -/
def isExpired (blockTime expiration : Option Nat) : Bool :=
  match blockTime, expiration with
  | some bt, some exp => decide (exp < bt)
  | _, _ => false

/-- Modelled from the spec: `replay_protection_checks` (the shell helper is
not among the provided sources). Per the spec as qualified by its open
question and the tests in `prepare_proposal.rs`: the inner raw-header hash
is checked against the durable key space only, the wrapper header hash is
checked against the durable key space and the in-proposal overlay, and
only the wrapper header hash gains a provisional pending entry. -/
def replayProtectionChecks (t : Tx) (st : TempWlState) :
    Except Unit TempWlState :=
  if t.rawHeaderHash ∈ st.replayBase then Except.error ()
  else if t.headerHash ∈ st.replayBase ∨ t.headerHash ∈ st.replayCommitted
      ∨ t.headerHash ∈ st.replayPending then Except.error ()
  else Except.ok { st with replayPending := t.headerHash :: st.replayPending }

/-- Minimum fee-rate resolution of `prepare_proposal_fee_check`: when a
validator-local configuration is present its `accepted_gas_tokens` table
decides (no fallback to storage); otherwise the gas-cost parameter table
of committed storage decides. A token absent from the consulted source is
an error. -/
def resolveMinGasPrice (localConfig : Option (List (Nat × Nat)))
    (gasCost : List (Nat × Nat)) (token : Nat) : Except Unit Nat :=
  match localConfig with
  | some cfg =>
    match lookupRate cfg token with
    | some r => Except.ok r
    | none => Except.error ()
  | none =>
    match lookupRate gasCost token with
    | some r => Except.ok r
    | none => Except.error ()

/-- Upper bound of a 256-bit token amount, for the explicit overflow check
of the proposer-computed total fee. -/
def amountMax : Nat := 2 ^ 256 - 1

/-- Modelled from the spec: `wrapper_fee_check` verifies that the offered
rate meets the minimum and that the total fee
`amount_per_gas_unit * gas_limit` does not overflow, returning it. -/
def wrapperFeeCheck (w : WrapperTx) (minRate : Nat) : Except Unit Nat :=
  if w.feeAmountPerGasUnit < minRate then Except.error ()
  else
    let fee := w.feeAmountPerGasUnit * w.gasLimit
    if amountMax < fee then Except.error () else Except.ok fee

/-- Modelled from the spec: a token transfer in the overlay, debit before
credit, a no-op when source and destination coincide or the amount is
zero. -/
def tokenTransfer (st : TempWlState) (token src dest amount : Nat) :
    TempWlState :=
  if src = dest ∨ amount = 0 then st
  else
    let srcBal := st.balance token src
    let st1 :=
      { st with balPending := (token, src, srcBal - amount) :: st.balPending }
    let destBal := st1.balance token dest
    { st1 with balPending := (token, dest, destBal + amount) :: st1.balPending }

/-- Modelled from the spec: `protocol::transfer_fee` pays the total fee
from the payer's overlay balance to the proposer, failing when the balance
does not cover it. -/
def transferFee (st : TempWlState) (proposer : Nat) (w : WrapperTx)
    (fee : Nat) : Except Unit TempWlState :=
  if fee ≤ st.balance w.feeToken w.payer then
    Except.ok (tokenTransfer st w.feeToken w.payer proposer fee)
  else Except.error ()

/-- The fee check of `prepare_proposal_fee_check`: resolve the minimum
rate, validate rate and overflow, then transfer the fee to the proposer
in the overlay. -/
def prepareProposalFeeCheck (ctx : ProposalCtx) (w : WrapperTx)
    (st : TempWlState) : Except Unit TempWlState :=
  match resolveMinGasPrice ctx.localConfig st.gasCost w.feeToken with
  | Except.error _ => Except.error ()
  | Except.ok minRate =>
    match wrapperFeeCheck w minRate with
    | Except.error _ => Except.error ()
    | Except.ok fee => transferFee st ctx.blockProposer w fee

/-- The admission gate `validate_wrapper_bytes`: decode, expiration,
structural validation, wrapper type, gas limit versus wrapper byte size,
replay protection, fee check. Returns the overlay after any writes made
for this candidate, together with the wrapper gas limit on success. -/
def validateWrapperBytes (ctx : ProposalCtx) (t : Tx) (st : TempWlState) :
    TempWlState × Option Nat :=
  if t.decodeOk = false then (st, none)
  else if isExpired ctx.blockTime t.expiration then (st, none)
  else if t.validateOk = false then (st, none)
  else
    match t.txType with
    | TxType.Wrapper w =>
      if w.gasLimit < t.byteSize then (st, none)
      else
        match replayProtectionChecks t st with
        | Except.error _ => (st, none)
        | Except.ok st1 =>
          match prepareProposalFeeCheck ctx w st1 with
          | Except.ok st2 => (st2, some w.gasLimit)
          | Except.error _ => (st1, none)
    | _ => (st, none)

/-- The normal-tx intake scan of `build_normal_txs`: per candidate, run the
admission gate and commit or drop its overlay writes, then offer the
admitted candidate to the allocator. An allocator `Rejected` failure ends
the scan with the candidate excluded; an `OverflowsBin` failure keeps the
candidate in the batch and continues the scan, mirroring the source where
the `take_while` predicate yields true for `OverflowsBin`. -/
def buildNormalTxsGo (ctx : ProposalCtx) :
    List Tx → TempWlState → NormalAlloc →
    List Tx × TempWlState × NormalAlloc
  | [], st, alloc => ([], st, alloc)
  | t :: rest, st, alloc =>
    match validateWrapperBytes ctx t st with
    | (stw, none) => buildNormalTxsGo ctx rest stw.dropTx alloc
    | (stw, some gas) =>
      let st2 := stw.commitTx
      match alloc.tryAlloc t.byteSize gas with
      | Except.ok alloc2 =>
        let r := buildNormalTxsGo ctx rest st2 alloc2
        (t :: r.1, r.2)
      | Except.error (AllocFailure.Rejected _) => ([], st2, alloc)
      | Except.error (AllocFailure.OverflowsBin _) =>
        let r := buildNormalTxsGo ctx rest st2 alloc
        (t :: r.1, r.2)

/-- `build_normal_txs`: open a fresh temporary write log over the state and
run the intake scan. -/
def buildNormalTxs (ctx : ProposalCtx) (txs : List Tx) (st : TempWlState)
    (alloc : NormalAlloc) : List Tx × TempWlState × NormalAlloc :=
  buildNormalTxsGo ctx txs st.withTempWriteLog alloc

/-- The protocol-tx intake scan of `build_protocol_txs`: the deserialized
iterator yields only valid proposer vote extensions, removing them from
the underlying list; entries failing to deserialize stay for later phases.
An allocator `Rejected` failure ends the scan (the pulled candidate is
consumed but excluded, the unpulled suffix is kept by `keep_rest`); an
`OverflowsBin` failure keeps the candidate and continues, as in the
source's `take_while`. Returns the taken batch, the remaining entries and
the allocator. -/
def buildProtocolTxsGo :
    List Tx → ProtAlloc → List Tx × List Tx × ProtAlloc
  | [], alloc => ([], [], alloc)
  | t :: rest, alloc =>
    if t.isVoteExt = false then
      let r := buildProtocolTxsGo rest alloc
      (r.1, t :: r.2.1, r.2.2)
    else
      match alloc.tryAlloc t.byteSize with
      | Except.ok alloc2 =>
        let r := buildProtocolTxsGo rest alloc2
        (t :: r.1, r.2)
      | Except.error (AllocFailure.Rejected _) => ([], rest, alloc)
      | Except.error (AllocFailure.OverflowsBin _) =>
        let r := buildProtocolTxsGo rest alloc
        (t :: r.1, r.2)

/-- `build_protocol_txs`: at the genesis height (no prior committed block)
no vote extensions can exist, so the batch is empty and the mempool list
is left untouched; otherwise run the protocol intake scan. -/
def buildProtocolTxs (lastBlockExists : Bool) (txs : List Tx)
    (alloc : ProtAlloc) : List Tx × List Tx × ProtAlloc :=
  if lastBlockExists = false then ([], txs, alloc)
  else buildProtocolTxsGo txs alloc

/-- The shell data needed by `prepare_proposal`: validator mode with its
local fee configuration, whether a block has been committed, the resolved
proposer address, the committed state, and the allocator bin capacities
derived from the block parameters (the capacity split of `block_alloc` is
not among the provided sources and is taken as given). -/
structure Shell where
  isValidator : Bool
  lastBlockExists : Bool
  localConfig : Option (List (Nat × Nat))
  blockProposer : Nat
  state : TempWlState
  protocolBinCap : Nat
  txBinCap : Nat
  gasBinCap : Nat
deriving DecidableEq

/-- A `RequestPrepareProposal`: the mempool candidate list and the block
time. -/
structure PrepareProposalRequest where
  txs : List Tx
  time : Option Nat
deriving DecidableEq

/-- `prepare_proposal`: for a validator, build the initial protocol batch,
then the normal batch over the entries the protocol phase left behind,
then the remaining protocol batch, and concatenate; a non-validator
returns an empty batch. The phase-three protocol bin receives the byte
space the normal phase left unused. -/
def prepareProposal (sh : Shell) (req : PrepareProposalRequest) : List Tx :=
  if sh.isValidator then
    let a1 : ProtAlloc := ⟨⟨sh.protocolBinCap, 0⟩⟩
    let p1 := buildProtocolTxs sh.lastBlockExists req.txs a1
    let ctx : ProposalCtx := ⟨req.time, sh.blockProposer, sh.localConfig⟩
    let a2 : NormalAlloc := ⟨⟨sh.txBinCap, 0⟩, ⟨sh.gasBinCap, 0⟩⟩
    let p2 := buildNormalTxs ctx p1.2.1 sh.state a2
    let a3 : ProtAlloc :=
      ⟨⟨p2.2.2.txBin.allotted - p2.2.2.txBin.occupied, 0⟩⟩
    let p3 := buildProtocolTxs sh.lastBlockExists p1.2.1 a3
    p1.1 ++ p2.1 ++ p3.1
  else []

/-- The PD controller state of `crates/controller/src/lib.rs`. Amounts
(`Uint`) are naturals; decimal values (`Dec`) are modelled as exact
rationals, the decimal arithmetic being an external collaborator. -/
structure PDController where
  totalNativeAmount : Nat
  maxRewardRate : Rat
  lastInflationAmount : Nat
  pGainNom : Rat
  dGainNom : Rat
  epochsPerYear : Nat
  targetMetric : Rat
  lastMetric : Rat

/-- `Dec::to_uint`: fails on a negative value, otherwise truncates the
fractional part. -/
def decToUint (q : Rat) : Option Nat :=
  if q < 0 then none else some ⌊q⌋₊

/-- `compute_control`: the compactified PD control formula. -/
def PDController.computeControl (c : PDController) (coeff currentMetric : Rat) :
    Rat :=
  coeff * (currentMetric * (c.dGainNom - c.pGainNom)
    + c.targetMetric * c.pGainNom - c.lastMetric * c.dGainNom)

/-- `get_max_inflation`: the per-epoch inflation cap
`total_native * max_reward_rate / epochs_per_year`, failing on a division
by zero or when the cap cannot be represented as an unsigned amount. -/
def PDController.getMaxInflation (c : PDController) : Except Unit Nat :=
  if c.epochsPerYear = 0 then Except.error ()
  else
    match decToUint ((c.totalNativeAmount : Rat) * c.maxRewardRate
        / (c.epochsPerYear : Rat)) with
    | some m => Except.ok m
    | none => Except.error ()

/-- `compute_inflation_aux`: add the control to the last inflation amount,
clamp a negative result to zero, and cap the result by the per-epoch
maximum inflation. -/
def PDController.computeInflationAux (c : PDController) (control : Rat) :
    Except Unit Nat :=
  let newAmount : Rat := (c.lastInflationAmount : Rat) + control
  let newUint : Nat := if newAmount < 0 then 0 else ⌊newAmount⌋₊
  match c.getMaxInflation with
  | Except.error e => Except.error e
  | Except.ok maxInflation => Except.ok (min newUint maxInflation)

/-- `compute_inflation`: compose the control computation with the clamped,
capped inflation update. -/
def PDController.computeInflation (c : PDController)
    (controlCoeff currentMetric : Rat) : Except Unit Nat :=
  c.computeInflationAux (c.computeControl controlCoeff currentMetric)

/-- Looking a balance write up in a concatenation consults the left list
first. -/
lemma lookupBalWrite_append (l1 l2 : List (Nat × Nat × Nat))
    (token owner : Nat) :
    lookupBalWrite (l1 ++ l2) token owner =
      match lookupBalWrite l1 token owner with
      | some a => some a
      | none => lookupBalWrite l2 token owner := by
  induction l1 with
  | nil => simp [lookupBalWrite]
  | cons hd tl ih =>
    obtain ⟨tk, ow, amt⟩ := hd
    by_cases hk : tk = token ∧ ow = owner
    · simp [lookupBalWrite, hk]
    · simp [lookupBalWrite, hk, ih]

/-- Committing the pending writes does not change any visible balance. -/
lemma balance_commitTx (st : TempWlState) (token owner : Nat) :
    st.commitTx.balance token owner = st.balance token owner := by
  unfold TempWlState.balance TempWlState.commitTx
  simp only [lookupBalWrite, lookupBalWrite_append]
  cases lookupBalWrite st.balPending token owner <;> rfl

/-- A token transfer touches only the pending balance writes. -/
lemma tokenTransfer_fields (st : TempWlState) (token src dest amt : Nat) :
    (tokenTransfer st token src dest amt).replayBase = st.replayBase
    ∧ (tokenTransfer st token src dest amt).replayCommitted
        = st.replayCommitted
    ∧ (tokenTransfer st token src dest amt).replayPending = st.replayPending
    ∧ (tokenTransfer st token src dest amt).gasCost = st.gasCost
    ∧ (tokenTransfer st token src dest amt).balBase = st.balBase
    ∧ (tokenTransfer st token src dest amt).balCommitted = st.balCommitted := by
  unfold tokenTransfer
  split <;> simp

/-- After a transfer between distinct parties the source balance has been
debited. -/
lemma tokenTransfer_balance_src (st : TempWlState) (token src dest amt : Nat)
    (h : src ≠ dest) :
    (tokenTransfer st token src dest amt).balance token src
      = st.balance token src - amt := by
  unfold tokenTransfer
  split
  · rename_i hc
    rcases hc with hc | hc
    · exact absurd hc h
    · subst hc; simp
  · have hq : ¬dest = src := fun q => h q.symm
    simp [TempWlState.balance, lookupBalWrite, hq]

/-- After a transfer between distinct parties the destination balance has
been credited. -/
lemma tokenTransfer_balance_dest (st : TempWlState) (token src dest amt : Nat)
    (h : src ≠ dest) :
    (tokenTransfer st token src dest amt).balance token dest
      = st.balance token dest + amt := by
  unfold tokenTransfer
  split
  · rename_i hc
    rcases hc with hc | hc
    · exact absurd hc h
    · subst hc; simp
  · have hp : ¬src = dest := h
    simp [TempWlState.balance, lookupBalWrite, hp]

/-- Success shape of the replay-protection check: both hashes were fresh
and the wrapper header hash gained a pending entry. -/
lemma replayProtectionChecks_ok (t : Tx) (st st1 : TempWlState)
    (h : replayProtectionChecks t st = Except.ok st1) :
    st1 = { st with replayPending := t.headerHash :: st.replayPending }
    ∧ t.rawHeaderHash ∉ st.replayBase
    ∧ t.headerHash ∉ st.replayBase
    ∧ t.headerHash ∉ st.replayCommitted
    ∧ t.headerHash ∉ st.replayPending := by
  unfold replayProtectionChecks at h
  split at h
  · simp at h
  · split at h
    · simp at h
    · rename_i h1 h2
      push_neg at h2
      injection h with h
      exact ⟨h.symm, h1, h2.1, h2.2.1, h2.2.2⟩

/-- Success shape of the fee-rate and overflow validation. -/
lemma wrapperFeeCheck_ok (w : WrapperTx) (minRate fee : Nat)
    (h : wrapperFeeCheck w minRate = Except.ok fee) :
    fee = w.feeAmountPerGasUnit * w.gasLimit
    ∧ minRate ≤ w.feeAmountPerGasUnit ∧ fee ≤ amountMax := by
  unfold wrapperFeeCheck at h
  split at h
  · simp at h
  · rename_i h1
    by_cases h2 : amountMax < w.feeAmountPerGasUnit * w.gasLimit
    · simp [h2] at h
    · simp [h2] at h
      subst h
      exact ⟨rfl, Nat.le_of_not_lt h1, Nat.le_of_not_lt h2⟩

/-- Success shape of the fee transfer: the payer could afford the fee and
the overlay records the transfer to the proposer. -/
lemma transferFee_ok (st st2 : TempWlState) (proposer : Nat) (w : WrapperTx)
    (fee : Nat) (h : transferFee st proposer w fee = Except.ok st2) :
    fee ≤ st.balance w.feeToken w.payer
    ∧ st2 = tokenTransfer st w.feeToken w.payer proposer fee := by
  unfold transferFee at h
  split at h
  · rename_i h1
    injection h with h
    exact ⟨h1, h.symm⟩
  · simp at h

/-- Success shape of `prepare_proposal_fee_check`. -/
lemma prepareProposalFeeCheck_ok (ctx : ProposalCtx) (w : WrapperTx)
    (st st2 : TempWlState)
    (h : prepareProposalFeeCheck ctx w st = Except.ok st2) :
    ∃ minRate, resolveMinGasPrice ctx.localConfig st.gasCost w.feeToken
        = Except.ok minRate
      ∧ minRate ≤ w.feeAmountPerGasUnit
      ∧ w.feeAmountPerGasUnit * w.gasLimit ≤ amountMax
      ∧ w.feeAmountPerGasUnit * w.gasLimit ≤ st.balance w.feeToken w.payer
      ∧ st2 = tokenTransfer st w.feeToken w.payer ctx.blockProposer
          (w.feeAmountPerGasUnit * w.gasLimit) := by
  unfold prepareProposalFeeCheck at h
  split at h
  · simp at h
  · rename_i minRate hres
    split at h
    · simp at h
    · rename_i fee hfee
      obtain ⟨hfe, hmin, hmax⟩ := wrapperFeeCheck_ok w minRate fee hfee
      subst hfe
      obtain ⟨hbal, hst⟩ := transferFee_ok st st2 ctx.blockProposer w _ h
      exact ⟨minRate, hres, hmin, hmax, hbal, hst⟩

/-- Success shape of the admission gate: the candidate decoded, was not
expired, validated, is a wrapper within its own gas limit, both hashes
were fresh, the fee was affordable and overflow-free, and the returned
overlay is the original one extended by the pending replay entry and the
pending fee transfer. -/
lemma validateWrapperBytes_ok (ctx : ProposalCtx) (t : Tx)
    (st st2 : TempWlState) (g : Nat)
    (h : validateWrapperBytes ctx t st = (st2, some g)) :
    ∃ w, t.txType = TxType.Wrapper w ∧ g = w.gasLimit
      ∧ t.decodeOk = true ∧ t.validateOk = true
      ∧ isExpired ctx.blockTime t.expiration = false
      ∧ t.byteSize ≤ w.gasLimit
      ∧ t.headerHash ∉ st.replayBase ∧ t.headerHash ∉ st.replayCommitted
      ∧ t.headerHash ∉ st.replayPending
      ∧ t.rawHeaderHash ∉ st.replayBase
      ∧ w.feeAmountPerGasUnit * w.gasLimit ≤ amountMax
      ∧ w.feeAmountPerGasUnit * w.gasLimit ≤ st.balance w.feeToken w.payer
      ∧ st2 = tokenTransfer
          { st with replayPending := t.headerHash :: st.replayPending }
          w.feeToken w.payer ctx.blockProposer
          (w.feeAmountPerGasUnit * w.gasLimit) := by
  unfold validateWrapperBytes at h
  split at h
  · simp at h
  · split at h
    · simp at h
    · split at h
      · simp at h
      · rename_i hdec hexp hval
        split at h
        · rename_i w hty
          split at h
          · simp at h
          · rename_i hgas
            split at h
            · simp at h
            · rename_i st1 hrep
              split at h
              · rename_i stf hfee
                injection h with hst hg
                injection hg with hg
                obtain ⟨hst1, hraw, hhb, hhc, hhp⟩ :=
                  replayProtectionChecks_ok t st st1 hrep
                subst hst1
                obtain ⟨minRate, -, -, hmax, hbal, hstf⟩ :=
                  prepareProposalFeeCheck_ok ctx w _ stf hfee
                subst hst
                refine ⟨w, hty, hg.symm, ?_, ?_, ?_, Nat.le_of_not_lt hgas,
                  hhb, hhc, hhp, hraw, hmax, hbal, hstf⟩
                · simpa using hdec
                · simpa using hval
                · simpa using hexp
              · simp at h
        · simp at h

/-- Failure shape of the admission gate: the returned overlay is either
untouched or carries only the pending replay entry (written before the
fee check failed); in both cases nothing was committed. -/
lemma validateWrapperBytes_none (ctx : ProposalCtx) (t : Tx)
    (st st2 : TempWlState)
    (h : validateWrapperBytes ctx t st = (st2, none)) :
    st2 = st
    ∨ st2 = { st with replayPending := t.headerHash :: st.replayPending } := by
  unfold validateWrapperBytes at h
  split at h
  · injection h with h1 h2; exact Or.inl h1.symm
  · split at h
    · injection h with h1 h2; exact Or.inl h1.symm
    · split at h
      · injection h with h1 h2; exact Or.inl h1.symm
      · split at h
        · split at h
          · injection h with h1 h2; exact Or.inl h1.symm
          · split at h
            · injection h with h1 h2; exact Or.inl h1.symm
            · rename_i st1 hrep
              split at h
              · simp at h
              · injection h with h1 h2
                obtain ⟨hst1, -, -, -, -⟩ :=
                  replayProtectionChecks_ok t st st1 hrep
                exact Or.inr (h1.symm.trans hst1)
        · injection h with h1 h2; exact Or.inl h1.symm

/-- The admission gate never touches the durable layer, the committed
overlay layer, the committed balance layers or the parameter table. -/
lemma validateWrapperBytes_fields (ctx : ProposalCtx) (t : Tx)
    (st st2 : TempWlState) (r : Option Nat)
    (h : validateWrapperBytes ctx t st = (st2, r)) :
    st2.replayBase = st.replayBase
    ∧ st2.replayCommitted = st.replayCommitted
    ∧ st2.balBase = st.balBase
    ∧ st2.balCommitted = st.balCommitted
    ∧ st2.gasCost = st.gasCost := by
  cases r with
  | none =>
    rcases validateWrapperBytes_none ctx t st st2 h with h1 | h1 <;>
      subst h1 <;> simp
  | some g =>
    obtain ⟨w, -, -, -, -, -, -, -, -, -, -, -, -, hst2⟩ :=
      validateWrapperBytes_ok ctx t st st2 g h
    subst hst2
    obtain ⟨hb, hc, -, hg, hbb, hbc⟩ := tokenTransfer_fields
      { st with replayPending := t.headerHash :: st.replayPending }
      w.feeToken w.payer ctx.blockProposer
      (w.feeAmountPerGasUnit * w.gasLimit)
    exact ⟨hb, hc, hbb, hbc, hg⟩

/-- On success the admission gate leaves exactly the wrapper header hash
as the pending replay entry on top of the previous pending entries. -/
lemma validateWrapperBytes_ok_pending (ctx : ProposalCtx) (t : Tx)
    (st st2 : TempWlState) (g : Nat)
    (h : validateWrapperBytes ctx t st = (st2, some g)) :
    st2.replayPending = t.headerHash :: st.replayPending := by
  obtain ⟨w, -, -, -, -, -, -, -, -, -, -, -, -, hst2⟩ :=
    validateWrapperBytes_ok ctx t st st2 g h
  subst hst2
  obtain ⟨-, -, hp, -, -, -⟩ := tokenTransfer_fields
    { st with replayPending := t.headerHash :: st.replayPending }
    w.feeToken w.payer ctx.blockProposer
    (w.feeAmountPerGasUnit * w.gasLimit)
  simpa using hp

/-- A candidate whose wrapper header hash is already visible in the durable
layer or the committed overlay layer never enters the normal batch. -/
lemma buildNormalTxsGo_not_mem (ctx : ProposalCtx) (t : Tx) :
    ∀ (txs : List Tx) (st : TempWlState) (alloc : NormalAlloc),
    t.headerHash ∈ st.replayBase ∨ t.headerHash ∈ st.replayCommitted →
    t ∉ (buildNormalTxsGo ctx txs st alloc).1 := by
  intro txs
  induction txs with
  | nil => intro st alloc hb; simp [buildNormalTxsGo]
  | cons x rest ih =>
    intro st alloc hb
    rcases hv : validateWrapperBytes ctx x st with ⟨stw, r⟩
    obtain ⟨hbase, hcomm, -, -, -⟩ :=
      validateWrapperBytes_fields ctx x st stw r hv
    cases r with
    | none =>
      simp only [buildNormalTxsGo, hv]
      apply ih
      simpa [TempWlState.dropTx, hbase, hcomm] using hb
    | some g =>
      have hxt : x ≠ t := by
        intro hq
        subst hq
        obtain ⟨w, -, -, -, -, -, -, hnb, hnc, -, -, -, -, -⟩ :=
          validateWrapperBytes_ok ctx x st stw g hv
        rcases hb with hb | hb
        · exact hnb hb
        · exact hnc hb
      have hcomm2 : t.headerHash ∈ stw.commitTx.replayBase
          ∨ t.headerHash ∈ stw.commitTx.replayCommitted := by
        rcases hb with hb | hb
        · exact Or.inl (by simpa [TempWlState.commitTx, hbase] using hb)
        · refine Or.inr ?_
          simp only [TempWlState.commitTx]
          exact List.mem_append_right _ (hcomm ▸ hb)
      simp only [buildNormalTxsGo, hv]
      cases halloc : NormalAlloc.tryAlloc alloc x.byteSize g with
      | ok a2 =>
        simp only [halloc]
        intro hmem
        rcases List.mem_cons.mp hmem with h1 | h1
        · exact hxt h1.symm
        · exact ih stw.commitTx a2 hcomm2 h1
      | error f =>
        cases f with
        | Rejected n => simp [halloc]
        | OverflowsBin n =>
          simp only [halloc]
          intro hmem
          rcases List.mem_cons.mp hmem with h1 | h1
          · exact hxt h1.symm
          · exact ih stw.commitTx alloc hcomm2 h1

/-- Any candidate appears at most once in the normal batch: admitting it
commits its wrapper header hash, which blocks every identical later
occurrence. -/
lemma buildNormalTxsGo_count_le_one (ctx : ProposalCtx) (t : Tx) :
    ∀ (txs : List Tx) (st : TempWlState) (alloc : NormalAlloc),
    (buildNormalTxsGo ctx txs st alloc).1.count t ≤ 1 := by
  intro txs
  induction txs with
  | nil => intro st alloc; simp [buildNormalTxsGo]
  | cons x rest ih =>
    intro st alloc
    rcases hv : validateWrapperBytes ctx x st with ⟨stw, r⟩
    cases r with
    | none =>
      simp only [buildNormalTxsGo, hv]
      exact ih _ _
    | some g =>
      simp only [buildNormalTxsGo, hv]
      have hdone : ∀ a2 : NormalAlloc,
          (x :: (buildNormalTxsGo ctx rest stw.commitTx a2).1).count t ≤ 1 := by
        intro a2
        by_cases hxt : x = t
        · subst hxt
          have h0 : x ∉ (buildNormalTxsGo ctx rest stw.commitTx a2).1 := by
            apply buildNormalTxsGo_not_mem
            refine Or.inr ?_
            have hp := validateWrapperBytes_ok_pending ctx x st stw g hv
            simp only [TempWlState.commitTx, hp]
            exact List.mem_append_left _ (List.mem_cons_self _ _)
          simp [List.count_cons, List.count_eq_zero_of_not_mem h0]
        · have hne : ¬t = x := fun q => hxt q.symm
          simpa [List.count_cons, hne] using ih stw.commitTx a2
      cases halloc : NormalAlloc.tryAlloc alloc x.byteSize g with
      | ok a2 =>
        simp only [halloc]
        exact hdone a2
      | error f =>
        cases f with
        | Rejected n => simp [halloc]
        | OverflowsBin n =>
          simp only [halloc]
          exact hdone alloc

/-- Every member of the normal batch passed the admission gate, hence is a
fee-bearing wrapper transaction. -/
lemma buildNormalTxsGo_mem_wrapper (ctx : ProposalCtx) :
    ∀ (txs : List Tx) (st : TempWlState) (alloc : NormalAlloc) (c : Tx),
    c ∈ (buildNormalTxsGo ctx txs st alloc).1 →
    ∃ w, c.txType = TxType.Wrapper w := by
  intro txs
  induction txs with
  | nil => intro st alloc c hmem; simp [buildNormalTxsGo] at hmem
  | cons x rest ih =>
    intro st alloc c hmem
    rcases hv : validateWrapperBytes ctx x st with ⟨stw, r⟩
    cases r with
    | none =>
      simp only [buildNormalTxsGo, hv] at hmem
      exact ih _ _ _ hmem
    | some g =>
      have hx : ∃ w, x.txType = TxType.Wrapper w := by
        obtain ⟨w, hty, -⟩ := validateWrapperBytes_ok ctx x st stw g hv
        exact ⟨w, hty⟩
      simp only [buildNormalTxsGo, hv] at hmem
      cases halloc : NormalAlloc.tryAlloc alloc x.byteSize g with
      | ok a2 =>
        rw [halloc] at hmem
        rcases List.mem_cons.mp hmem with h1 | h1
        · exact h1 ▸ hx
        · exact ih _ _ _ h1
      | error f =>
        cases f with
        | Rejected n => rw [halloc] at hmem; simp at hmem
        | OverflowsBin n =>
          rw [halloc] at hmem
          rcases List.mem_cons.mp hmem with h1 | h1
          · exact h1 ▸ hx
          · exact ih _ _ _ h1

/-- A well-formed wrapper candidate paying fee rate 1 of token 0 from
payer 1 with gas limit 1000, parameterized by byte size and hashes. -/
def sampleWrapper (size hh rhh : Nat) : Tx :=
  { decodeOk := true
    validateOk := true
    expiration := none
    txType := TxType.Wrapper
      { feeAmountPerGasUnit := 1, feeToken := 0, gasLimit := 1000, payer := 1 }
    headerHash := hh
    rawHeaderHash := rhh
    byteSize := size
    isVoteExt := false }

/-- A committed state with an empty replay-protection key space, a large
balance of token 0 for payer 1, and a global minimum gas price of 1 for
token 0. -/
def sampleState : TempWlState :=
  { replayBase := []
    replayCommitted := []
    replayPending := []
    balBase := [(0, 1, 1000000)]
    balCommitted := []
    balPending := []
    gasCost := [(0, 1)] }

/-- A proposal context without block time or local fee configuration, with
proposer address 2. -/
def sampleCtx : ProposalCtx :=
  { blockTime := none, blockProposer := 2, localConfig := none }

/-- C1. The claim says an `OverflowsBin` failure merely skips the oversized
item, so that sizes [150, 50, 60] against a byte bin of capacity 100 admit
item 2 alone. On the source the `take_while` predicate returns true for
`OverflowsBin`, so the oversized first item is also kept in the batch (the
accompanying log message nevertheless says the large tx is dropped): the
batch is [item 1, item 2], refuting the claimed admitted set. -/
theorem c1_oversized_tx_included_at_failing_input :
    (buildNormalTxs sampleCtx
        [sampleWrapper 150 11 21, sampleWrapper 50 12 22,
          sampleWrapper 60 13 23]
        sampleState ⟨⟨100, 0⟩, ⟨100000, 0⟩⟩).1
      = [sampleWrapper 150 11 21, sampleWrapper 50 12 22]
    ∧ (buildProtocolTxs true
        [{ sampleWrapper 150 17 27 with isVoteExt := true },
          { sampleWrapper 50 18 28 with isVoteExt := true },
          { sampleWrapper 60 19 29 with isVoteExt := true }]
        ⟨⟨100, 0⟩⟩).1
      = [{ sampleWrapper 150 17 27 with isVoteExt := true },
          { sampleWrapper 50 18 28 with isVoteExt := true }] := by
  exact ⟨by decide, by decide⟩

/-- A wrapper paying in token 1 at rate 5. -/
def c2w : WrapperTx :=
  { feeAmountPerGasUnit := 5, feeToken := 1, gasLimit := 1000, payer := 1 }

/-- A context whose validator-local fee configuration accepts only
token 0. -/
def c2Ctx : ProposalCtx :=
  { blockTime := none, blockProposer := 2, localConfig := some [(0, 1)] }

/-- A candidate paying fees in token 1. -/
def c2Tx : Tx :=
  { decodeOk := true
    validateOk := true
    expiration := none
    txType := TxType.Wrapper c2w
    headerHash := 14
    rawHeaderHash := 24
    byteSize := 50
    isVoteExt := false }

/-- A committed state whose global gas-cost parameter lists token 1 at
rate 5 and funds payer 1 in token 1. -/
def c2State : TempWlState :=
  { sampleState with gasCost := [(1, 5)], balBase := [(1, 1, 1000000)] }

/-- C2, counterexample. Token 1 is listed in the global minimum-gas-price
parameter table, yet with a validator-local configuration present that
does not list it, the source rejects (no fallback to storage): the claim
that a candidate is rejected for an unaccepted fee token only when the
token is listed in neither source is false. -/
theorem c2_local_config_no_fallback_counterexample :
    resolveMinGasPrice (some [(0, 1)]) [(1, 5)] 1 = Except.error ()
    ∧ lookupRate [(1, 5)] 1 = some 5
    ∧ (validateWrapperBytes c2Ctx c2Tx c2State).2 = none :=
  ⟨rfl, rfl, rfl⟩

/-- C2, amended: when a validator-local fee configuration is present it
alone decides (its configured rate is used for listed tokens and unlisted
tokens are rejected without consulting storage); only when no local
configuration is present is the global per-token minimum-gas-price
parameter read, rejecting tokens absent from it; a failed resolution
rejects the candidate in the fee check. -/
theorem c2_min_fee_rate_resolution :
    ∀ (localConfig : Option (List (Nat × Nat))) (gasCost : List (Nat × Nat))
      (token : Nat),
    (∀ cfg, localConfig = some cfg →
      resolveMinGasPrice localConfig gasCost token
        = match lookupRate cfg token with
          | some r => Except.ok r
          | none => Except.error ())
    ∧ (localConfig = none →
      resolveMinGasPrice localConfig gasCost token
        = match lookupRate gasCost token with
          | some r => Except.ok r
          | none => Except.error ())
    ∧ (∀ (ctx : ProposalCtx) (w : WrapperTx) (st : TempWlState),
        ctx.localConfig = localConfig → st.gasCost = gasCost →
        w.feeToken = token →
        resolveMinGasPrice localConfig gasCost token = Except.error () →
        prepareProposalFeeCheck ctx w st = Except.error ()) := by
  intro localConfig gasCost token
  refine ⟨?_, ?_, ?_⟩
  · intro cfg hc; subst hc; rfl
  · intro hc; subst hc; rfl
  · intro ctx w st h1 h2 h3 hres
    unfold prepareProposalFeeCheck
    rw [h1, h2, h3, hres]

/-- C2, witness for the amended theorem at concrete inputs. -/
theorem c2_min_fee_rate_resolution_witness :
    (resolveMinGasPrice (some [(0, 1)]) [(1, 5)] 0
      = match lookupRate [(0, 1)] 0 with
        | some r => Except.ok r
        | none => Except.error ())
    ∧ prepareProposalFeeCheck c2Ctx c2w c2State = Except.error () :=
  ⟨(c2_min_fee_rate_resolution (some [(0, 1)]) [(1, 5)] 0).1 [(0, 1)] rfl,
   (c2_min_fee_rate_resolution (some [(0, 1)]) [(1, 5)] 1).2.2 c2Ctx c2w
     c2State rfl rfl rfl rfl⟩

/-- A validator shell at the genesis height (no prior committed block). -/
def c3Shell : Shell :=
  { isValidator := true
    lastBlockExists := false
    localConfig := none
    blockProposer := 2
    state := sampleState
    protocolBinCap := 1000
    txBinCap := 1000
    gasBinCap := 100000 }

/-- A genesis-height request carrying one admissible wrapper. -/
def c3Req : PrepareProposalRequest :=
  { txs := [sampleWrapper 50 81 91], time := none }

/-- C3, counterexample. At the genesis height the source only suppresses
the protocol-tx phases; the normal-tx phase still runs, so a request
whose mempool carries an admissible wrapper yields a non-empty batch,
refuting the claim that the batch is empty regardless of mempool
content. -/
theorem c3_genesis_nonempty_batch_counterexample :
    c3Shell.lastBlockExists = false
    ∧ prepareProposal c3Shell c3Req = [sampleWrapper 50 81 91] := by
  decide

/-- C3, amended: at the genesis height no protocol transactions are
proposed (both protocol phases yield empty batches and leave the mempool
list untouched), so the proposal is exactly the normal-tx batch for a
validator and empty for a non-validator. -/
theorem c3_genesis_only_normal_txs :
    ∀ (sh : Shell) (req : PrepareProposalRequest),
    sh.lastBlockExists = false →
    prepareProposal sh req =
      if sh.isValidator then
        (buildNormalTxs ⟨req.time, sh.blockProposer, sh.localConfig⟩ req.txs
          sh.state ⟨⟨sh.txBinCap, 0⟩, ⟨sh.gasBinCap, 0⟩⟩).1
      else [] := by
  intro sh req hg
  unfold prepareProposal buildProtocolTxs
  simp [hg]

/-- C3, witness for the amended theorem at the concrete genesis shell. -/
theorem c3_genesis_only_normal_txs_witness :
    c3Shell.lastBlockExists = false
    ∧ prepareProposal c3Shell c3Req =
        (if c3Shell.isValidator then
          (buildNormalTxs
            ⟨c3Req.time, c3Shell.blockProposer, c3Shell.localConfig⟩
            c3Req.txs c3Shell.state
            ⟨⟨c3Shell.txBinCap, 0⟩, ⟨c3Shell.gasBinCap, 0⟩⟩).1
        else []) :=
  ⟨rfl, c3_genesis_only_normal_txs c3Shell c3Req rfl⟩

/-- Dropping on an overlay with no pending writes is the identity. -/
lemma dropTx_eq_self (st : TempWlState) (hrp : st.replayPending = [])
    (hbp : st.balPending = []) : st.dropTx = st := by
  obtain ⟨rb, rc, rp, bb, bc, bp, gc⟩ := st
  simp only at hrp hbp
  subst hrp; subst hbp
  rfl

/-- Dropping after only the pending replay entry was written restores the
overlay exactly when it had no pending writes before. -/
lemma dropTx_update_eq_self (st : TempWlState) (hrp : st.replayPending = [])
    (hbp : st.balPending = []) (x : List Nat) :
    TempWlState.dropTx { st with replayPending := x } = st := by
  obtain ⟨rb, rc, rp, bb, bc, bp, gc⟩ := st
  simp only at hrp hbp
  subst hrp; subst hbp
  rfl

/-- C4. Per-candidate atomicity of the admission gate against the overlay:
on any failure the drop of the candidate's pending writes restores the
overlay exactly as it was; on success the commit publishes the replay
entry and the fee debit `amount_per_gas_unit * gas_limit` (checked against
the amount bound and against the payer's overlay balance), moving it from
the payer to the proposer, all visible to subsequent candidates through
the committed layer. -/
theorem c4_per_candidate_commit_or_drop :
    ∀ (ctx : ProposalCtx) (t : Tx) (w : WrapperTx) (st : TempWlState),
    st.replayPending = [] → st.balPending = [] →
    w.payer ≠ ctx.blockProposer →
    (∀ stw, validateWrapperBytes ctx t st = (stw, none) →
      stw.dropTx = st)
    ∧ (∀ stw g, validateWrapperBytes ctx t st = (stw, some g) →
        t.txType = TxType.Wrapper w →
        g = w.gasLimit
        ∧ w.feeAmountPerGasUnit * w.gasLimit ≤ amountMax
        ∧ w.feeAmountPerGasUnit * w.gasLimit
            ≤ st.balance w.feeToken w.payer
        ∧ t.headerHash ∈ stw.commitTx.replayCommitted
        ∧ stw.commitTx.replayPending = []
        ∧ stw.commitTx.balPending = []
        ∧ stw.commitTx.balance w.feeToken w.payer
            = st.balance w.feeToken w.payer
              - w.feeAmountPerGasUnit * w.gasLimit
        ∧ stw.commitTx.balance w.feeToken ctx.blockProposer
            = st.balance w.feeToken ctx.blockProposer
              + w.feeAmountPerGasUnit * w.gasLimit) := by
  intro ctx t w st hrp hbp hne
  constructor
  · intro stw hv
    rcases validateWrapperBytes_none ctx t st stw hv with h1 | h1 <;> rw [h1]
    · exact dropTx_eq_self st hrp hbp
    · exact dropTx_update_eq_self st hrp hbp _
  · intro stw g hv hty
    obtain ⟨w0, hty0, hg, -, -, -, -, -, -, -, -, hmax, hbal, hstf⟩ :=
      validateWrapperBytes_ok ctx t st stw g hv
    rw [hty] at hty0
    injection hty0 with hw
    subst hw
    have hpend := validateWrapperBytes_ok_pending ctx t st stw g hv
    refine ⟨hg, hmax, hbal, ?_, rfl, rfl, ?_, ?_⟩
    · simp only [TempWlState.commitTx]
      rw [hpend]
      exact List.mem_append_left _ (List.mem_cons_self _ _)
    · rw [balance_commitTx, hstf,
        tokenTransfer_balance_src _ _ _ _ _ hne]
      rfl
    · rw [balance_commitTx, hstf,
        tokenTransfer_balance_dest _ _ _ _ _ hne]
      rfl

/-- The wrapper fee data shared by the sample candidates. -/
def c4w : WrapperTx :=
  { feeAmountPerGasUnit := 1, feeToken := 0, gasLimit := 1000, payer := 1 }

/-- A concrete admissible candidate for the commit-side witness. -/
def c4Tx : Tx := sampleWrapper 50 61 71

/-- The overlay returned by the admission gate on the concrete candidate. -/
def c4Stw : TempWlState :=
  (validateWrapperBytes sampleCtx c4Tx sampleState).1

/-- C4, witness: the commit side evaluated on the concrete candidate. -/
theorem c4_per_candidate_commit_or_drop_witness :
    (1000 : Nat) = c4w.gasLimit
    ∧ c4w.feeAmountPerGasUnit * c4w.gasLimit ≤ amountMax
    ∧ c4w.feeAmountPerGasUnit * c4w.gasLimit
        ≤ sampleState.balance c4w.feeToken c4w.payer
    ∧ c4Tx.headerHash ∈ c4Stw.commitTx.replayCommitted
    ∧ c4Stw.commitTx.replayPending = []
    ∧ c4Stw.commitTx.balPending = []
    ∧ c4Stw.commitTx.balance c4w.feeToken c4w.payer
        = sampleState.balance c4w.feeToken c4w.payer
          - c4w.feeAmountPerGasUnit * c4w.gasLimit
    ∧ c4Stw.commitTx.balance c4w.feeToken sampleCtx.blockProposer
        = sampleState.balance c4w.feeToken sampleCtx.blockProposer
          + c4w.feeAmountPerGasUnit * c4w.gasLimit :=
  (c4_per_candidate_commit_or_drop sampleCtx c4Tx c4w sampleState rfl rfl
    (by decide)).2 c4Stw 1000 rfl rfl

/-- A candidate whose inner raw-header hash is already persisted in the
durable replay-protection key space never enters the normal batch. -/
lemma buildNormalTxsGo_not_mem_raw (ctx : ProposalCtx) (t : Tx) :
    ∀ (txs : List Tx) (st : TempWlState) (alloc : NormalAlloc),
    t.rawHeaderHash ∈ st.replayBase →
    t ∉ (buildNormalTxsGo ctx txs st alloc).1 := by
  intro txs
  induction txs with
  | nil => intro st alloc hb; simp [buildNormalTxsGo]
  | cons x rest ih =>
    intro st alloc hb
    rcases hv : validateWrapperBytes ctx x st with ⟨stw, r⟩
    obtain ⟨hbase, -, -, -, -⟩ :=
      validateWrapperBytes_fields ctx x st stw r hv
    cases r with
    | none =>
      simp only [buildNormalTxsGo, hv]
      apply ih
      simpa [TempWlState.dropTx, hbase] using hb
    | some g =>
      have hxt : x ≠ t := by
        intro hq
        subst hq
        obtain ⟨w, -, -, -, -, -, -, -, -, -, hnraw, -, -, -⟩ :=
          validateWrapperBytes_ok ctx x st stw g hv
        exact hnraw hb
      have hb2 : t.rawHeaderHash ∈ stw.commitTx.replayBase := by
        simpa [TempWlState.commitTx, hbase] using hb
      simp only [buildNormalTxsGo, hv]
      cases halloc : NormalAlloc.tryAlloc alloc x.byteSize g with
      | ok a2 =>
        simp only [halloc]
        intro hmem
        rcases List.mem_cons.mp hmem with h1 | h1
        · exact hxt h1.symm
        · exact ih stw.commitTx a2 hb2 h1
      | error f =>
        cases f with
        | Rejected n => simp [halloc]
        | OverflowsBin n =>
          simp only [halloc]
          intro hmem
          rcases List.mem_cons.mp hmem with h1 | h1
          · exact hxt h1.symm
          · exact ih stw.commitTx alloc hb2 h1

/-- C5. A wrapper whose wrapper-level header hash or whose inner
raw-header hash is already persisted in the durable replay-protection key
space never enters the normal batch, whatever its fee and gas data; and
any candidate is admitted at most once per call, because admitting it
commits a provisional entry for its header hash that blocks every
byte-identical later occurrence. -/
theorem c5_replay_rejection_and_same_block_dedup :
    ∀ (ctx : ProposalCtx) (txs : List Tx) (st : TempWlState)
      (alloc : NormalAlloc) (t : Tx),
    (t.headerHash ∈ st.replayBase ∨ t.rawHeaderHash ∈ st.replayBase →
      t ∉ (buildNormalTxs ctx txs st alloc).1)
    ∧ (buildNormalTxs ctx txs st alloc).1.count t ≤ 1 := by
  intro ctx txs st alloc t
  constructor
  · intro hb
    show t ∉ (buildNormalTxsGo ctx txs st.withTempWriteLog alloc).1
    rcases hb with hb | hb
    · apply buildNormalTxsGo_not_mem
      exact Or.inl (by simpa [TempWlState.withTempWriteLog] using hb)
    · apply buildNormalTxsGo_not_mem_raw
      simpa [TempWlState.withTempWriteLog] using hb
  · exact buildNormalTxsGo_count_le_one ctx t txs st.withTempWriteLog alloc

/-- A committed state whose durable replay-protection space already holds
hash 99. -/
def c5St : TempWlState := { sampleState with replayBase := [99] }

/-- C5, witness: a candidate with persisted wrapper hash 99 and a
candidate with persisted inner raw hash 99 are both dropped from concrete
runs, and the duplicated candidate list admits its candidate at most
once. -/
theorem c5_replay_rejection_and_same_block_dedup_witness :
    sampleWrapper 50 99 109 ∉
      (buildNormalTxs sampleCtx [sampleWrapper 50 99 109, sampleWrapper 50 99 109]
        c5St ⟨⟨1000, 0⟩, ⟨100000, 0⟩⟩).1
    ∧ sampleWrapper 50 110 99 ∉
      (buildNormalTxs sampleCtx [sampleWrapper 50 110 99]
        c5St ⟨⟨1000, 0⟩, ⟨100000, 0⟩⟩).1
    ∧ (buildNormalTxs sampleCtx
        [sampleWrapper 50 99 109, sampleWrapper 50 99 109]
        c5St ⟨⟨1000, 0⟩, ⟨100000, 0⟩⟩).1.count (sampleWrapper 50 99 109) ≤ 1 :=
  ⟨(c5_replay_rejection_and_same_block_dedup sampleCtx
      [sampleWrapper 50 99 109, sampleWrapper 50 99 109] c5St
      ⟨⟨1000, 0⟩, ⟨100000, 0⟩⟩ (sampleWrapper 50 99 109)).1 (Or.inl (by decide)),
   (c5_replay_rejection_and_same_block_dedup sampleCtx
      [sampleWrapper 50 110 99] c5St
      ⟨⟨1000, 0⟩, ⟨100000, 0⟩⟩ (sampleWrapper 50 110 99)).1 (Or.inr (by decide)),
   (c5_replay_rejection_and_same_block_dedup sampleCtx
      [sampleWrapper 50 99 109, sampleWrapper 50 99 109] c5St
      ⟨⟨1000, 0⟩, ⟨100000, 0⟩⟩ (sampleWrapper 50 99 109)).2⟩

/-- A context carrying block time 4. -/
def c6Ctx : ProposalCtx :=
  { blockTime := some 4, blockProposer := 2, localConfig := none }

/-- A candidate whose expiration 3 lies one unit before block time 4. -/
def c6Tx : Tx := { sampleWrapper 50 16 26 with expiration := some 3 }

/-- C6. The expiration gate rejects exactly when both a block time and an
expiration are present and the block time is strictly later: equality at
the boundary is accepted, one unit earlier is rejected, and a missing
block time or a missing expiration means non-expired; an expired
candidate is dropped by the admission gate with the overlay untouched. -/
theorem c6_expiration_boundary :
    (∀ bt : Nat, isExpired (some bt) (some bt) = false)
    ∧ (∀ e : Nat, isExpired (some (e + 1)) (some e) = true)
    ∧ (∀ e, isExpired none e = false)
    ∧ (∀ bt, isExpired bt none = false)
    ∧ (∀ bt e : Nat, isExpired (some bt) (some e) = true ↔ e < bt)
    ∧ (∀ (ctx : ProposalCtx) (t : Tx) (st : TempWlState),
        isExpired ctx.blockTime t.expiration = true →
        validateWrapperBytes ctx t st = (st, none)) := by
  refine ⟨?_, ?_, ?_, ?_, ?_, ?_⟩
  · intro bt; simp [isExpired]
  · intro e; simp [isExpired]
  · intro e; rfl
  · intro bt; cases bt <;> rfl
  · intro bt e; simp [isExpired]
  · intro ctx t st hexp
    unfold validateWrapperBytes
    by_cases hdec : t.decodeOk = false
    · simp [hdec]
    · simp [hdec, hexp]

/-- C6, witness: the boundary cases and a concrete expired candidate. -/
theorem c6_expiration_boundary_witness :
    isExpired (some 5) (some 5) = false
    ∧ isExpired (some (3 + 1)) (some 3) = true
    ∧ validateWrapperBytes c6Ctx c6Tx sampleState = (sampleState, none) :=
  ⟨c6_expiration_boundary.1 5,
   c6_expiration_boundary.2.1 3,
   c6_expiration_boundary.2.2.2.2.2 c6Ctx c6Tx sampleState (by decide)⟩

/-- A wrapper paid by payer 1 around inner hash 77. -/
def c7Tx1 : Tx :=
  { decodeOk := true
    validateOk := true
    expiration := none
    txType := TxType.Wrapper
      { feeAmountPerGasUnit := 1, feeToken := 0, gasLimit := 1000, payer := 1 }
    headerHash := 31
    rawHeaderHash := 77
    byteSize := 50
    isVoteExt := false }

/-- A distinct wrapper paid by payer 3 around the same inner hash 77. -/
def c7Tx2 : Tx :=
  { decodeOk := true
    validateOk := true
    expiration := none
    txType := TxType.Wrapper
      { feeAmountPerGasUnit := 1, feeToken := 0, gasLimit := 1000, payer := 3 }
    headerHash := 32
    rawHeaderHash := 77
    byteSize := 50
    isVoteExt := false }

/-- A committed state funding both payers 1 and 3 in token 0. -/
def c7State : TempWlState :=
  { sampleState with balBase := [(0, 1, 1000000), (0, 3, 1000000)] }

/-- C7. The replay check fails only on a durable hit of the inner hash or
a durable or in-proposal hit of the wrapper header hash, never because an
earlier admitted candidate shares the inner raw-header hash; concretely,
two distinct wrappers around the same inner transaction are both admitted
in one call. -/
theorem c7_same_inner_hash_both_admitted :
    (∀ (t : Tx) (st : TempWlState),
      (∃ st1, replayProtectionChecks t st = Except.ok st1) ↔
        (t.rawHeaderHash ∉ st.replayBase ∧ t.headerHash ∉ st.replayBase
          ∧ t.headerHash ∉ st.replayCommitted
          ∧ t.headerHash ∉ st.replayPending))
    ∧ (buildNormalTxs sampleCtx [c7Tx1, c7Tx2] c7State
        ⟨⟨1000, 0⟩, ⟨100000, 0⟩⟩).1 = [c7Tx1, c7Tx2]
    ∧ c7Tx1 ≠ c7Tx2
    ∧ c7Tx1.rawHeaderHash = c7Tx2.rawHeaderHash := by
  refine ⟨?_, by decide, by decide, rfl⟩
  intro t st
  constructor
  · rintro ⟨st1, h⟩
    exact (replayProtectionChecks_ok t st st1 h).2
  · rintro ⟨h1, h2, h3, h4⟩
    have h5 : ¬(t.headerHash ∈ st.replayBase
        ∨ t.headerHash ∈ st.replayCommitted
        ∨ t.headerHash ∈ st.replayPending) := by
      push_neg
      exact ⟨h2, h3, h4⟩
    exact ⟨{ st with replayPending := t.headerHash :: st.replayPending },
      by unfold replayProtectionChecks; rw [if_neg h1, if_neg h5]⟩

/-- C7, witness: the replay check succeeds on a concrete state whose
committed overlay already holds a different wrapper hash over the same
inner hash. -/
theorem c7_same_inner_hash_both_admitted_witness :
    ∃ st1, replayProtectionChecks c7Tx2
      { c7State with replayCommitted := [31] } = Except.ok st1 :=
  ((c7_same_inner_hash_both_admitted.1 c7Tx2
    { c7State with replayCommitted := [31] }).mpr (by decide))

/-- A bare (non-wrapper) candidate. -/
def c8Raw : Tx :=
  { decodeOk := true
    validateOk := true
    expiration := none
    txType := TxType.Raw
    headerHash := 15
    rawHeaderHash := 25
    byteSize := 10
    isVoteExt := false }

/-- C8. A candidate whose decoded type is not a fee-bearing wrapper always
fails the admission gate, and every member of the proposed normal batch is
a wrapper transaction. -/
theorem c8_only_wrappers_in_normal_batch :
    (∀ (ctx : ProposalCtx) (t : Tx) (st : TempWlState),
      (∀ w, t.txType ≠ TxType.Wrapper w) →
      (validateWrapperBytes ctx t st).2 = none)
    ∧ (∀ (ctx : ProposalCtx) (txs : List Tx) (st : TempWlState)
        (alloc : NormalAlloc) (c : Tx),
      c ∈ (buildNormalTxs ctx txs st alloc).1 →
      ∃ w, c.txType = TxType.Wrapper w) := by
  constructor
  · intro ctx t st hnw
    rcases hv : validateWrapperBytes ctx t st with ⟨stw, r⟩
    cases r with
    | none => rfl
    | some g =>
      obtain ⟨w, hty, -⟩ := validateWrapperBytes_ok ctx t st stw g hv
      exact absurd hty (hnw w)
  · intro ctx txs st alloc c hmem
    exact buildNormalTxsGo_mem_wrapper ctx txs st.withTempWriteLog alloc c hmem

/-- C8, witness: a concrete raw candidate is refused and a concrete
admitted batch member is a wrapper. -/
theorem c8_only_wrappers_in_normal_batch_witness :
    (validateWrapperBytes sampleCtx c8Raw sampleState).2 = none
    ∧ ∃ w, (sampleWrapper 50 12 22).txType = TxType.Wrapper w :=
  ⟨c8_only_wrappers_in_normal_batch.1 sampleCtx c8Raw sampleState
      (fun w h => by simp [c8Raw] at h),
   c8_only_wrappers_in_normal_batch.2 sampleCtx [sampleWrapper 50 12 22]
      sampleState ⟨⟨1000, 0⟩, ⟨100000, 0⟩⟩ (sampleWrapper 50 12 22)
      (by decide)⟩

/-- C9. The overlay writes of an admitted candidate are committed before
the allocator is consulted: when the allocator then refuses the candidate
(bin full or oversized item), the scan's final overlay is the committed
one and still carries the candidate's replay entry; allocator refusal
rolls nothing back. -/
theorem c9_commit_precedes_allocation :
    ∀ (ctx : ProposalCtx) (t : Tx) (st stw : TempWlState) (g : Nat)
      (alloc : NormalAlloc) (f : AllocFailure),
    validateWrapperBytes ctx t st = (stw, some g) →
    alloc.tryAlloc t.byteSize g = Except.error f →
    (buildNormalTxsGo ctx [t] st alloc).2.1 = stw.commitTx
    ∧ t.headerHash
        ∈ (buildNormalTxsGo ctx [t] st alloc).2.1.replayCommitted := by
  intro ctx t st stw g alloc f hv ha
  have hpend := validateWrapperBytes_ok_pending ctx t st stw g hv
  have hmem : t.headerHash ∈ stw.commitTx.replayCommitted := by
    simp only [TempWlState.commitTx]
    rw [hpend]
    exact List.mem_append_left _ (List.mem_cons_self _ _)
  cases f with
  | Rejected n =>
    have hrun : buildNormalTxsGo ctx [t] st alloc = ([], stw.commitTx, alloc) := by
      simp [buildNormalTxsGo, hv, ha]
    rw [hrun]
    exact ⟨rfl, hmem⟩
  | OverflowsBin n =>
    have hrun : buildNormalTxsGo ctx [t] st alloc
        = ([t], stw.commitTx, alloc) := by
      simp [buildNormalTxsGo, hv, ha]
    rw [hrun]
    exact ⟨rfl, hmem⟩

/-- The overlay returned by the admission gate on the oversized concrete
candidate. -/
def c9Stw : TempWlState :=
  (validateWrapperBytes sampleCtx (sampleWrapper 150 41 51) sampleState).1

/-- C9, witness: the oversized candidate is refused by a byte bin of
capacity 100 yet its committed replay entry survives in the final
overlay. -/
theorem c9_commit_precedes_allocation_witness :
    (buildNormalTxsGo sampleCtx [sampleWrapper 150 41 51] sampleState
        ⟨⟨100, 0⟩, ⟨100000, 0⟩⟩).2.1 = c9Stw.commitTx
    ∧ (sampleWrapper 150 41 51).headerHash
        ∈ (buildNormalTxsGo sampleCtx [sampleWrapper 150 41 51] sampleState
            ⟨⟨100, 0⟩, ⟨100000, 0⟩⟩).2.1.replayCommitted :=
  c9_commit_precedes_allocation sampleCtx (sampleWrapper 150 41 51)
    sampleState c9Stw 1000 ⟨⟨100, 0⟩, ⟨100000, 0⟩⟩
    (AllocFailure.OverflowsBin 100) rfl rfl

/-- C10. On every controller state with a nonzero epochs-per-year and a
representable cap, `compute_inflation` returns exactly
`min(max(last_inflation_amount + control, 0), cap)` with
`control = coeff * (current * (d_gain - p_gain) + target * p_gain
- last * d_gain)` and `cap = total_native * max_reward_rate /
epochs_per_year`; in particular any returned amount never exceeds the
per-epoch cap. -/
theorem c10_pd_inflation_formula :
    ∀ (c : PDController) (coeff current : Rat),
    c.epochsPerYear ≠ 0 →
    0 ≤ (c.totalNativeAmount : Rat) * c.maxRewardRate
      / (c.epochsPerYear : Rat) →
    c.computeInflation coeff current
      = Except.ok (min
          (⌊max ((c.lastInflationAmount : Rat)
            + c.computeControl coeff current) 0⌋₊)
          (⌊(c.totalNativeAmount : Rat) * c.maxRewardRate
            / (c.epochsPerYear : Rat)⌋₊))
    ∧ (∀ r, c.computeInflation coeff current = Except.ok r →
        (r : Rat) ≤ (c.totalNativeAmount : Rat) * c.maxRewardRate
          / (c.epochsPerYear : Rat)) := by
  intro c coeff current he hcap
  have hmax : c.getMaxInflation = Except.ok
      ⌊(c.totalNativeAmount : Rat) * c.maxRewardRate
        / (c.epochsPerYear : Rat)⌋₊ := by
    unfold PDController.getMaxInflation decToUint
    rw [if_neg he, if_neg (not_lt.mpr hcap)]
  have hfloor :
      (if ((c.lastInflationAmount : Rat)
          + c.computeControl coeff current) < 0 then (0 : Nat)
        else ⌊(c.lastInflationAmount : Rat)
          + c.computeControl coeff current⌋₊)
      = ⌊max ((c.lastInflationAmount : Rat)
          + c.computeControl coeff current) 0⌋₊ := by
    by_cases hneg : ((c.lastInflationAmount : Rat)
        + c.computeControl coeff current) < 0
    · rw [if_pos hneg, max_eq_right hneg.le, Nat.floor_zero]
    · rw [if_neg hneg, max_eq_left (not_lt.mp hneg)]
  have hmain : c.computeInflation coeff current
      = Except.ok (min
          (⌊max ((c.lastInflationAmount : Rat)
            + c.computeControl coeff current) 0⌋₊)
          (⌊(c.totalNativeAmount : Rat) * c.maxRewardRate
            / (c.epochsPerYear : Rat)⌋₊)) := by
    unfold PDController.computeInflation PDController.computeInflationAux
    rw [hmax]
    simp only [hfloor]
  refine ⟨hmain, ?_⟩
  intro r hr
  rw [hmain] at hr
  injection hr with hr
  subst hr
  have h1 : ((min
      (⌊max ((c.lastInflationAmount : Rat)
        + c.computeControl coeff current) 0⌋₊)
      (⌊(c.totalNativeAmount : Rat) * c.maxRewardRate
        / (c.epochsPerYear : Rat)⌋₊) : Nat) : Rat)
      ≤ ((⌊(c.totalNativeAmount : Rat) * c.maxRewardRate
        / (c.epochsPerYear : Rat)⌋₊ : Nat) : Rat) := by
    exact_mod_cast min_le_right _ _
  exact h1.trans (Nat.floor_le hcap)

/-- A concrete controller state: total native amount 1000, maximum reward
rate one tenth, last inflation 10, unit gains, 4 epochs per year. -/
def c10pd : PDController :=
  { totalNativeAmount := 1000
    maxRewardRate := 1 / 10
    lastInflationAmount := 10
    pGainNom := 1
    dGainNom := 1
    epochsPerYear := 4
    targetMetric := 5
    lastMetric := 3 }

/-- C10, witness: the formula evaluated on the concrete controller. -/
theorem c10_pd_inflation_formula_witness :
    c10pd.computeInflation 1 2
      = Except.ok (min
          (⌊max ((c10pd.lastInflationAmount : Rat)
            + c10pd.computeControl 1 2) 0⌋₊)
          (⌊(c10pd.totalNativeAmount : Rat) * c10pd.maxRewardRate
            / (c10pd.epochsPerYear : Rat)⌋₊))
    ∧ (∀ r, c10pd.computeInflation 1 2 = Except.ok r →
        (r : Rat) ≤ (c10pd.totalNativeAmount : Rat) * c10pd.maxRewardRate
          / (c10pd.epochsPerYear : Rat)) :=
  c10_pd_inflation_formula c10pd 1 2 (by decide) (by norm_num [c10pd])
